import Mathlib

/-!
# sdl2-rumble: the command server of `src/main.cpp`

A shallow embedding of the rumble daemon: the `sscanf` step that parses a
command, `handleRumble`, `signalHandler`, and the body of the `while (running)`
loop of `main`, followed by theorems about them.

Conventions of the embedding.

* A byte is a `Nat`; a buffer is a `List Nat`.  The program never looks inside a
  `SDL_GameController *` handle, so a controller is a `Nat` identifier and
  `controllers` is a list of them.
* Everything the environment decides (the value of the `running` flag when it is
  read, the results of `select`, `accept`, `read`, `SDL_GameControllerRumble`,
  the indeterminate initial values of the locals) is an explicit input, bundled
  in `Iter`, one per iteration of the loop.
* Everything the program does to the outside world is an `Effect`; running code
  yields the list of its effects in program order.
* `sscanf` is the C library's.  Its model follows ISO C 7.21.6.2 for the
  directives of the format `"%d %hu %hu %u"`; for numerals that do not fit the
  receiving object (undefined in ISO C) it follows glibc on an LP64 target: the
  numeral goes through `strtol`/`strtoul` (64-bit, saturating) and the result is
  cast to the type of the receiving object.
-/

namespace Rumble

/-! ## Bytes and machine integers -/

/-- Bytes of a string literal (all strings used below are ASCII). -/
def bytes (s : String) : List Nat := s.toList.map Char.toNat

/-- The predicate `isspace` in the C locale: space, `\t`, `\n`, `\v`, `\f`, `\r`. -/
def isspace (c : Nat) : Bool := c == 32 || (9 ≤ c && c ≤ 13)

/-- The predicate `isdigit`: `'0'` .. `'9'`. -/
def isdigit (c : Nat) : Bool := 48 ≤ c && c ≤ 57

/-- The C string held in a `char` array: the bytes before the first NUL. -/
def cstr (buffer : List Nat) : List Nat := buffer.takeWhile (fun c => c != 0)

/-- Value of `strtol` (64-bit `long`) on a numeral with the given sign and
magnitude: saturates at `LONG_MIN` / `LONG_MAX`. -/
def strtol (neg : Bool) (mag : Nat) : Int :=
  if neg then (if mag > 2 ^ 63 then -(2 ^ 63 : Int) else -(mag : Int))
  else (if mag > 2 ^ 63 - 1 then (2 ^ 63 - 1 : Int) else (mag : Int))

/-- Value of `strtoul` (64-bit `unsigned long`) on a numeral with the given sign
and magnitude: `ULONG_MAX` on overflow, otherwise the magnitude, negated in
`unsigned long` arithmetic when the numeral has a minus sign. -/
def strtoul (neg : Bool) (mag : Nat) : Nat :=
  if mag > 2 ^ 64 - 1 then 2 ^ 64 - 1
  else if neg then (2 ^ 64 - mag) % 2 ^ 64 else mag

/-- Cast `(int)` of a `long`: reduction to 32 bits, two's complement. -/
def toInt32 (x : Int) : Int :=
  let r := x % 2 ^ 32
  if r ≥ 2 ^ 31 then r - 2 ^ 32 else r

/-- Cast `(unsigned short)`. -/
def toUint16 (x : Nat) : Nat := x % 2 ^ 16

/-- Cast `(unsigned int)`. -/
def toUint32 (x : Nat) : Nat := x % 2 ^ 32

/-! ## The `sscanf` step -/

/-- Outcome of one numeric conversion directive (`%d`, `%hu`, `%u`). -/
inductive Conv where
  /-- The input ended before the first character of the item. -/
  | inputFailure
  /-- The next input is not a numeral. -/
  | matchFailure
  /-- A numeral was consumed: its sign, its magnitude, the unread input. -/
  | item (neg : Bool) (mag : Nat) (rest : List Nat)
  deriving DecidableEq, Repr

/-- Skip input white space (done before every numeric directive and for a white
space directive of the format). -/
def skipSpace : List Nat → List Nat
  | [] => []
  | c :: cs => if isspace c then skipSpace cs else c :: cs

/-- Consume the longest run of decimal digits, accumulating its value. -/
def readDigits : Nat → List Nat → Nat × List Nat
  | acc, [] => (acc, [])
  | acc, c :: cs => if isdigit c then readDigits (acc * 10 + (c - 48)) cs else (acc, c :: cs)

/-- One numeric directive in base 10: skip white space, take an optional sign,
then at least one digit. -/
def scanNumber (s : List Nat) : Conv :=
  match skipSpace s with
  | [] => Conv.inputFailure
  | c :: cs =>
    let body := if c = 45 ∨ c = 43 then cs else c :: cs
    match body with
    | [] => Conv.matchFailure
    | d :: ds =>
      if isdigit d then
        Conv.item (c = 45) (readDigits 0 (d :: ds)).1 (readDigits 0 (d :: ds)).2
      else Conv.matchFailure

/-- The four locals `controllerIndex`, `low_freq`, `high_freq`, `duration` of
`main` that `sscanf` writes through its pointer arguments. -/
structure Vars where
  controllerIndex : Int
  low_freq : Nat
  high_freq : Nat
  duration : Nat
  deriving DecidableEq, Repr

/-- The call `sscanf(buffer, "%d %hu %hu %u", &controllerIndex, &low_freq,
&high_freq, &duration)`: the return value and the locals afterwards.  `v` holds
the (indeterminate) values of the locals before the call; a local is
overwritten only when its conversion succeeds.  The return value is the number
of conversions done, or `EOF = -1` when the input ends before the first one. -/
def sscanf (buffer : List Nat) (v : Vars) : Int × Vars :=
  match scanNumber (cstr buffer) with
  | Conv.inputFailure => (-1, v)
  | Conv.matchFailure => (0, v)
  | Conv.item n1 m1 r1 =>
    let v1 := { v with controllerIndex := toInt32 (strtol n1 m1) }
    match scanNumber r1 with
    | Conv.inputFailure => (1, v1)
    | Conv.matchFailure => (1, v1)
    | Conv.item n2 m2 r2 =>
      let v2 := { v1 with low_freq := toUint16 (strtoul n2 m2) }
      match scanNumber r2 with
      | Conv.inputFailure => (2, v2)
      | Conv.matchFailure => (2, v2)
      | Conv.item n3 m3 r3 =>
        let v3 := { v2 with high_freq := toUint16 (strtoul n3 m3) }
        match scanNumber r3 with
        | Conv.inputFailure => (3, v3)
        | Conv.matchFailure => (3, v3)
        | Conv.item n4 m4 _ =>
          (4, { v3 with duration := toUint32 (strtoul n4 m4) })

/-! ## Effects and environment -/

/-- What the program does to the outside world, in program order.  A call whose
result the program looks at carries that result. -/
inductive Effect where
  /-- Call `SDL_GameControllerRumble(controller, low, high, duration)` and its return value. -/
  | rumble (controller : Nat) (low high duration : Nat) (ret : Int)
  /-- Call `std::this_thread::sleep_for(std::chrono::milliseconds(ms))`. -/
  | sleep (ms : Nat)
  /-- Call `select` on the listening socket and its return value. -/
  | select (ret : Int)
  /-- Call `accept` and its return value. -/
  | accept (fd : Int)
  /-- Call `read(fd, buffer, 255)` and its return value. -/
  | read (fd : Int) (n : Int)
  /-- Call `close(fd)`. -/
  | close (fd : Int)
  /-- Call `SDL_GameControllerClose(controller)`. -/
  | closeController (controller : Nat)
  /-- Call `SDL_Quit()`. -/
  | quit
  /-- A line written to `std::cout`. -/
  | cout (line : String)
  /-- A line written to `std::cerr`. -/
  | cerr (line : String)
  deriving DecidableEq, Repr

/-- The environment's answers during one iteration of `while (running)`. -/
structure Iter where
  /-- Value of `running` read by the loop test. -/
  running : Bool
  /-- Return value of `select`. -/
  retval : Int
  /-- Value of `running` read by the nested `if (running)` after a failed call. -/
  runningAfter : Bool
  /-- Return value of `accept`. -/
  newsockfd : Int
  /-- Outcome of `read`: `none` when it fails (`n < 0`), otherwise the bytes
  available on the connection, of which at most 255 are stored. -/
  incoming : Option (List Nat)
  /-- Indeterminate initial values of the four locals. -/
  uninit : Vars
  /-- Return value of the `SDL_GameControllerRumble` call that starts the rumble. -/
  startRet : Int
  /-- Return value of the `SDL_GameControllerRumble(controller, 0, 0, 0)` call. -/
  stopRet : Int
  deriving Repr

/-- Text of a C string, as `operator<<` prints a `char` array. -/
def text (buffer : List Nat) : String := String.mk ((cstr buffer).map Char.ofNat)

/-! ## `handleRumble` and `signalHandler` -/

/-- The function `handleRumble(controller, low_frequency_rumble,
high_frequency_rumble, duration)`; `startRet` and `stopRet` are what the two
`SDL_GameControllerRumble` calls return.  The text of `SDL_GetError()` that ends
the error line is the library's and is left out. -/
def handleRumble (startRet stopRet : Int) (controller : Nat)
    (low_frequency_rumble high_frequency_rumble duration : Nat) : List Effect :=
  if startRet ≠ 0 then
    [Effect.rumble controller low_frequency_rumble high_frequency_rumble duration startRet,
     Effect.cerr "Error: Unable to start rumble: "]
  else
    [Effect.rumble controller low_frequency_rumble high_frequency_rumble duration startRet,
     Effect.cout ("Rumble started: low_freq=" ++ toString low_frequency_rumble ++ ", high_freq="
        ++ toString high_frequency_rumble ++ ", duration=" ++ toString duration ++ " ms"),
     Effect.sleep duration,
     Effect.rumble controller 0 0 0 stopRet,
     Effect.cout "Rumble stopped"]

/-- The function `signalHandler(signum)`: its effects and the value of the
global `running` afterwards (`running` is its value before). -/
def signalHandler (signum : Int) (_running : Bool) : List Effect × Bool :=
  ([Effect.cout ("Interrupt signal (" ++ toString signum ++ ") received. Shutting down...")],
   false)

/-! ## The server loop of `main` -/

/-- The array `buffer[256]` after `memset(buffer, 0, 256)` and a `read` of at
most 255 bytes that delivered `incoming`. -/
def bufferAfterRead (incoming : List Nat) : List Nat :=
  incoming.take 255 ++ List.replicate (256 - (incoming.take 255).length) 0

/-- Return value `n` of `read`. -/
def readCount : Option (List Nat) → Int
  | none => -1
  | some bs => ((bs.take 255).length : Int)

/-- The part of the loop body from the `sscanf` call to the end of the `if`
around it (lines 194-212): parse, validate the index, dispatch. -/
def dispatch (controllers : List Nat) (it : Iter) (buffer : List Nat) : List Effect :=
  let parsed := sscanf buffer it.uninit
  let controllerIndex := parsed.2.controllerIndex
  if parsed.1 = 4 then
    if h : 0 ≤ controllerIndex ∧ controllerIndex < (controllers.length : Int) then
      handleRumble it.startRet it.stopRet
        (controllers.get ⟨controllerIndex.toNat, by omega⟩)
        parsed.2.low_freq parsed.2.high_freq parsed.2.duration
    else
      [Effect.cerr ("Invalid controller index: " ++ toString controllerIndex)]
  else
    [Effect.cerr "Invalid command format"]

/-- One execution of the body of `while (running)`: its effects, and whether
control goes back to the loop test (`true`) or leaves the loop by `break`
(`false`). -/
def loopBody (controllers : List Nat) (it : Iter) : List Effect × Bool :=
  if it.retval = -1 then
    (Effect.select it.retval ::
      (if it.runningAfter then [Effect.cerr "Error on select"] else []), false)
  else if it.retval ≠ 0 then
    if it.newsockfd < 0 then
      (Effect.select it.retval :: Effect.accept it.newsockfd ::
        (if it.runningAfter then [Effect.cerr "Error on accept"] else []), true)
    else
      match it.incoming with
      | none =>
        ([Effect.select it.retval, Effect.accept it.newsockfd,
          Effect.cout "Accepted a new connection",
          Effect.read it.newsockfd (readCount none),
          Effect.cerr "Error reading from socket",
          Effect.close it.newsockfd], true)
      | some bs =>
        ([Effect.select it.retval, Effect.accept it.newsockfd,
          Effect.cout "Accepted a new connection",
          Effect.read it.newsockfd (readCount (some bs)),
          Effect.cout ("Received command: " ++ text (bufferAfterRead bs))]
          ++ dispatch controllers it (bufferAfterRead bs)
          ++ [Effect.close it.newsockfd, Effect.cout "Connection closed"], true)
  else
    ([Effect.select it.retval], true)

/-- The clean-up after the loop (lines 220-228). -/
def teardown (controllers : List Nat) (sockfd : Int) : List Effect :=
  Effect.close sockfd :: controllers.map Effect.closeController
    ++ [Effect.quit, Effect.cout "Application closed gracefully."]

/-- The loop `while (running) { ... }` followed by the clean-up, run against a
script of environment answers, one per iteration.  When the script ends the
observation ends (the loop itself has no bound). -/
def serverLoop (controllers : List Nat) (sockfd : Int) : List Iter → List Effect
  | [] => []
  | it :: rest =>
    if it.running then
      if (loopBody controllers it).2 then
        (loopBody controllers it).1 ++ serverLoop controllers sockfd rest
      else
        (loopBody controllers it).1 ++ teardown controllers sockfd
    else teardown controllers sockfd

/-! ## The listening port -/

/-- The constant `PORT`. -/
def PORT : Int := 123456

/-- Conversion of an `int` argument to the `uint16_t` parameter of `htons`. -/
def toUint16OfInt (x : Int) : Nat := (x % 2 ^ 16).toNat

/-- Swap the two bytes of a 16-bit value. -/
def bswap16 (x : Nat) : Nat := (x % 256) * 256 + x / 256 % 256

/-- The call `htons(x)` on an `int` argument: the argument is converted to
`uint16_t`, then put in network (big-endian) byte order. -/
def htons (littleEndianHost : Bool) (x : Int) : Nat :=
  if littleEndianHost then bswap16 (toUint16OfInt x) else toUint16OfInt x

/-- The port number a `sin_port` field denotes (what `bind` binds). -/
def portOfSinPort (littleEndianHost : Bool) (sin_port : Nat) : Nat :=
  if littleEndianHost then bswap16 sin_port else sin_port

/-- The field `serv_addr.sin_port` after line 116. -/
def sin_port (littleEndianHost : Bool) : Nat := htons littleEndianHost PORT

/-- The line written to `std::cout` at line 130. -/
def bindLogLine : String := "Socket binding successful on port " ++ toString PORT

/-! ## Observations on traces -/

/-- The calls made on controllers and the sleeps, without the rest. -/
def deviceCalls (t : List Effect) : List Effect :=
  t.filter (fun e => match e with
    | Effect.rumble _ _ _ _ _ => true
    | Effect.sleep _ => true
    | _ => false)

/-- Is the effect a `SDL_GameControllerRumble` call? -/
def isRumble : Effect → Bool
  | Effect.rumble _ _ _ _ _ => true
  | _ => false

/-- State of the motors as the trace is read: at rest, or driven by a command
that started on `controller` and has not been stopped yet. -/
inductive Motor where
  | idle
  | active (controller : Nat)
  deriving DecidableEq, Repr

/-- Reading one effect.  At rest a rumble call is a start, and it takes hold
when it returns 0.  While a command is active the only rumble call allowed is
its own stop call `rumble(controller, 0, 0, 0)`; any other one is a violation
(`none`). -/
def serialStep : Motor → Effect → Option Motor
  | Motor.idle, Effect.rumble c _ _ _ ret => if ret = 0 then some (Motor.active c) else some Motor.idle
  | Motor.active c, Effect.rumble c2 l h d _ =>
    if c2 = c ∧ l = 0 ∧ h = 0 ∧ d = 0 then some Motor.idle else none
  | m, _ => some m

/-- Reading a whole trace from a given motor state. -/
def serialRun : Motor → List Effect → Option Motor
  | m, [] => some m
  | m, e :: t =>
    match serialStep m e with
    | none => none
    | some m2 => serialRun m2 t

/-! ## Text of a command -/

/-- Decimal digits of `n`, most significant first, with `fuel` bounding the
number of digits after the first. -/
def decimalFuel : Nat → Nat → List Nat
  | 0, n => [48 + n % 10]
  | fuel + 1, n => if n < 10 then [48 + n] else decimalFuel fuel (n / 10) ++ [48 + n % 10]

/-- The decimal numeral of `n` (as `printf("%u")` writes it). -/
def decimal (n : Nat) : List Nat := decimalFuel n n

/-- The decimal numeral of an integer, with a minus sign when negative. -/
def decimalInt (z : Int) : List Nat :=
  if z < 0 then 45 :: decimal z.natAbs else decimal z.natAbs

/-- The text `"d l h dur"`: four numerals separated by single spaces. -/
def commandText (d l h dur : Int) : List Nat :=
  decimalInt d ++ 32 :: decimalInt l ++ 32 :: decimalInt h ++ 32 :: decimalInt dur

/-- Split at white space: the maximal runs of non-white-space bytes. -/
def wsTokensAux : List Nat → List Nat → List (List Nat)
  | cur, [] => if cur = [] then [] else [cur.reverse]
  | cur, c :: cs =>
    if isspace c then (if cur = [] then wsTokensAux [] cs else cur.reverse :: wsTokensAux [] cs)
    else wsTokensAux (c :: cur) cs

/-- The white-space-separated tokens of a C string. -/
def wsTokens (s : List Nat) : List (List Nat) := wsTokensAux [] s

/-! ## Numerals, as a grammar -/

/-- Value of a run of digit bytes read left to right from `acc`. -/
def digitsValue (acc : Nat) (ds : List Nat) : Nat :=
  ds.foldl (fun a c => a * 10 + (c - 48)) acc

/-- The next unread byte, if any, is not a digit. -/
def NoDigitAhead (rest : List Nat) : Prop := ∀ c cs, rest = c :: cs → isdigit c = false

/-- The list `s` begins with a numeral as the directives of the format take it: any
white space, an optional sign, one or more decimal digits, up to a byte that is
not a digit (or the end); `rest` is what follows the numeral. -/
def Numeral (s rest : List Nat) : Prop :=
  ∃ ws sg ds, s = ws ++ (sg ++ (ds ++ rest)) ∧ (∀ c ∈ ws, isspace c = true)
    ∧ (sg = [] ∨ sg = [43] ∨ sg = [45]) ∧ ds ≠ [] ∧ (∀ c ∈ ds, isdigit c = true)
    ∧ NoDigitAhead rest

/-- The list `s` begins with four numerals in a row. -/
def FourNumerals (s : List Nat) : Prop :=
  ∃ r1 r2 r3 r4, Numeral s r1 ∧ Numeral r1 r2 ∧ Numeral r2 r3 ∧ Numeral r3 r4

/-! ## Lemmas on numerals and the scanner -/

theorem readDigits_of_noDigitAhead (acc : Nat) (rest : List Nat) (h : NoDigitAhead rest) :
    readDigits acc rest = (acc, rest) := by
  cases rest with
  | nil => rfl
  | cons c cs => simp [readDigits, h c cs rfl]

theorem readDigits_cons_digit (acc c : Nat) (cs : List Nat) (hc : isdigit c = true) :
    readDigits acc (c :: cs) = readDigits (acc * 10 + (c - 48)) cs := by
  simp [readDigits, hc]

theorem readDigits_append (ds : List Nat) (hd : ∀ c ∈ ds, isdigit c = true) :
    ∀ (acc : Nat) (rest : List Nat),
      readDigits acc (ds ++ rest) = readDigits (digitsValue acc ds) rest := by
  induction ds with
  | nil => intro acc rest; rfl
  | cons c cs ih =>
    intro acc rest
    have hc : isdigit c = true := hd c (List.mem_cons_self c cs)
    have hcs : ∀ x ∈ cs, isdigit x = true := fun x hx => hd x (List.mem_cons_of_mem c hx)
    rw [List.cons_append, readDigits_cons_digit acc c _ hc, ih hcs]
    rfl

theorem decimalFuel_spec : ∀ (fuel n : Nat), n ≤ fuel →
    (∀ c ∈ decimalFuel fuel n, isdigit c = true) ∧ decimalFuel fuel n ≠ [] ∧
      digitsValue 0 (decimalFuel fuel n) = n := by
  intro fuel
  induction fuel with
  | zero =>
    intro n hn
    have h0 : n = 0 := by omega
    subst h0
    simp [decimalFuel, digitsValue, isdigit]
  | succ fuel ih =>
    intro n hn
    by_cases hlt : n < 10
    · have hdef : decimalFuel (fuel + 1) n = [48 + n] := by simp [decimalFuel, hlt]
      rw [hdef]
      refine ⟨?_, by simp, ?_⟩
      · intro c hc
        simp only [List.mem_singleton] at hc
        subst hc
        simp only [isdigit, Bool.and_eq_true, decide_eq_true_eq]
        omega
      · simp [digitsValue]
    · have hdef : decimalFuel (fuel + 1) n = decimalFuel fuel (n / 10) ++ [48 + n % 10] := by
        simp [decimalFuel, hlt]
      have hle : n / 10 ≤ fuel := by omega
      obtain ⟨h1, _, h3⟩ := ih (n / 10) hle
      rw [hdef]
      refine ⟨?_, by simp, ?_⟩
      · intro c hc
        rcases List.mem_append.mp hc with hc | hc
        · exact h1 c hc
        · simp only [List.mem_singleton] at hc
          subst hc
          simp only [isdigit, Bool.and_eq_true, decide_eq_true_eq]
          omega
      · have hv : digitsValue 0 (decimalFuel fuel (n / 10) ++ [48 + n % 10])
            = digitsValue 0 (decimalFuel fuel (n / 10)) * 10 + (48 + n % 10 - 48) := by
          simp [digitsValue, List.foldl_append]
        rw [hv, h3]
        omega

theorem decimal_digits (n : Nat) : ∀ c ∈ decimal n, isdigit c = true :=
  (decimalFuel_spec n n (Nat.le_refl n)).1

theorem decimal_ne_nil (n : Nat) : decimal n ≠ [] :=
  (decimalFuel_spec n n (Nat.le_refl n)).2.1

theorem decimal_value (n : Nat) : digitsValue 0 (decimal n) = n :=
  (decimalFuel_spec n n (Nat.le_refl n)).2.2

theorem isdigit_not_space (c : Nat) (h : isdigit c = true) : isspace c = false := by
  simp only [isdigit, Bool.and_eq_true, decide_eq_true_eq] at h
  simp only [isspace, Bool.or_eq_false_iff, beq_eq_false_iff_ne, Bool.and_eq_false_iff,
    decide_eq_false_iff_not]
  omega

theorem isdigit_not_sign (c : Nat) (h : isdigit c = true) : ¬ (c = 45 ∨ c = 43) := by
  simp only [isdigit, Bool.and_eq_true, decide_eq_true_eq] at h
  omega

theorem isdigit_ne_zero (c : Nat) (h : isdigit c = true) : (c != 0) = true := by
  simp only [isdigit, Bool.and_eq_true, decide_eq_true_eq] at h
  simp only [bne_iff_ne, ne_eq]
  omega

theorem scanNumber_cons_digit (c : Nat) (cs : List Nat) (hc : isdigit c = true) :
    scanNumber (c :: cs)
      = Conv.item false (readDigits 0 (c :: cs)).1 (readDigits 0 (c :: cs)).2 := by
  have hns := isdigit_not_sign c hc
  have h45 : c ≠ 45 := fun h => hns (Or.inl h)
  have h43 : c ≠ 43 := fun h => hns (Or.inr h)
  simp [scanNumber, skipSpace, isdigit_not_space c hc, hc, h45, h43]

theorem scanNumber_minus_cons_digit (c : Nat) (cs : List Nat) (hc : isdigit c = true) :
    scanNumber (45 :: c :: cs)
      = Conv.item true (readDigits 0 (c :: cs)).1 (readDigits 0 (c :: cs)).2 := by
  have hsp : isspace 45 = false := by decide
  simp [scanNumber, skipSpace, hsp, hc]

/-- Scanning digits followed by a non-digit. -/
theorem scanNumber_digits (ds rest : List Nat) (hne : ds ≠ [])
    (hd : ∀ c ∈ ds, isdigit c = true) (hr : NoDigitAhead rest) :
    scanNumber (ds ++ rest) = Conv.item false (digitsValue 0 ds) rest := by
  cases ds with
  | nil => exact absurd rfl hne
  | cons c cs =>
    have hc : isdigit c = true := hd c (List.mem_cons_self c cs)
    have hrd : readDigits 0 (c :: (cs ++ rest)) = (digitsValue 0 (c :: cs), rest) := by
      rw [← List.cons_append, readDigits_append (c :: cs) hd 0 rest,
        readDigits_of_noDigitAhead _ _ hr]
    rw [List.cons_append, scanNumber_cons_digit c _ hc, hrd]

/-- Scanning a minus sign, digits and a non-digit. -/
theorem scanNumber_minus_digits (ds rest : List Nat) (hne : ds ≠ [])
    (hd : ∀ c ∈ ds, isdigit c = true) (hr : NoDigitAhead rest) :
    scanNumber (45 :: ds ++ rest) = Conv.item true (digitsValue 0 ds) rest := by
  cases ds with
  | nil => exact absurd rfl hne
  | cons c cs =>
    have hc : isdigit c = true := hd c (List.mem_cons_self c cs)
    have hrd : readDigits 0 (c :: (cs ++ rest)) = (digitsValue 0 (c :: cs), rest) := by
      rw [← List.cons_append, readDigits_append (c :: cs) hd 0 rest,
        readDigits_of_noDigitAhead _ _ hr]
    rw [List.cons_append, List.cons_append, scanNumber_minus_cons_digit c _ hc, hrd]

theorem scanNumber_space (s : List Nat) : scanNumber (32 :: s) = scanNumber s := by
  have hsp : isspace 32 = true := by decide
  simp [scanNumber, skipSpace, hsp]

/-- Scanning the numeral of an integer followed by a non-digit. -/
theorem scanNumber_decimalInt (z : Int) (rest : List Nat) (hr : NoDigitAhead rest) :
    scanNumber (decimalInt z ++ rest) = Conv.item (decide (z < 0)) z.natAbs rest := by
  by_cases hz : z < 0
  · have hdef : decimalInt z = 45 :: decimal z.natAbs := by simp [decimalInt, hz]
    rw [hdef, scanNumber_minus_digits _ _ (decimal_ne_nil _) (decimal_digits _) hr,
      decimal_value]
    simp [hz]
  · have hdef : decimalInt z = decimal z.natAbs := by simp [decimalInt, hz]
    rw [hdef, scanNumber_digits _ _ (decimal_ne_nil _) (decimal_digits _) hr, decimal_value]
    simp [hz]

theorem noDigitAhead_space (s : List Nat) : NoDigitAhead (32 :: s) := by
  intro c cs h
  cases h
  decide

theorem noDigitAhead_nil : NoDigitAhead [] := by
  intro c cs h
  cases h

theorem decimalInt_no_nul (z : Int) : ∀ c ∈ decimalInt z, (c != 0) = true := by
  intro c hc
  by_cases hz : z < 0
  · have hdef : decimalInt z = 45 :: decimal z.natAbs := by simp [decimalInt, hz]
    rw [hdef] at hc
    rcases List.mem_cons.mp hc with h | h
    · subst h; decide
    · exact isdigit_ne_zero c (decimal_digits _ c h)
  · have hdef : decimalInt z = decimal z.natAbs := by simp [decimalInt, hz]
    rw [hdef] at hc
    exact isdigit_ne_zero c (decimal_digits _ c hc)

theorem commandText_no_nul (d l h dur : Int) : ∀ c ∈ commandText d l h dur, (c != 0) = true := by
  intro c hc
  simp only [commandText, List.mem_append, List.mem_cons, or_assoc] at hc
  rcases hc with hc | hc | hc | hc | hc | hc | hc
  · exact decimalInt_no_nul d c hc
  · subst hc; decide
  · exact decimalInt_no_nul l c hc
  · subst hc; decide
  · exact decimalInt_no_nul h c hc
  · subst hc; decide
  · exact decimalInt_no_nul dur c hc

theorem cstr_append (xs tail : List Nat) (hx : ∀ c ∈ xs, (c != 0) = true) :
    cstr (xs ++ tail) = xs ++ cstr tail := by
  induction xs with
  | nil => rfl
  | cons c cs ih =>
    have hc := hx c (List.mem_cons_self c cs)
    have hcs : ∀ x ∈ cs, (x != 0) = true := fun x hx2 => hx x (List.mem_cons_of_mem c hx2)
    simp only [cstr, List.cons_append, List.takeWhile_cons, hc, if_true]
    have := ih hcs
    simp only [cstr] at this
    rw [this]

theorem noDigitAhead_cstr (tail : List Nat) (h : NoDigitAhead tail) : NoDigitAhead (cstr tail) := by
  intro c cs hc
  cases tail with
  | nil => simp [cstr] at hc
  | cons t ts =>
    simp only [cstr, List.takeWhile_cons] at hc
    split at hc
    · cases hc
      exact h c ts rfl
    · cases hc

/-- The scanner on the text of a command followed by anything that does not
start with a digit: four conversions, each value going through `strtol` or
`strtoul` and the cast to the receiving local. -/
theorem sscanf_commandText (d l h dur : Int) (tail : List Nat) (ht : NoDigitAhead tail)
    (v : Vars) :
    sscanf (commandText d l h dur ++ tail) v
      = (4, { controllerIndex := toInt32 (strtol (decide (d < 0)) d.natAbs),
              low_freq := toUint16 (strtoul (decide (l < 0)) l.natAbs),
              high_freq := toUint16 (strtoul (decide (h < 0)) h.natAbs),
              duration := toUint32 (strtoul (decide (dur < 0)) dur.natAbs) }) := by
  have h4 : scanNumber (decimalInt dur ++ cstr tail)
      = Conv.item (decide (dur < 0)) dur.natAbs (cstr tail) :=
    scanNumber_decimalInt dur _ (noDigitAhead_cstr tail ht)
  have h3 : scanNumber (32 :: (decimalInt h ++ 32 :: (decimalInt dur ++ cstr tail)))
      = Conv.item (decide (h < 0)) h.natAbs (32 :: (decimalInt dur ++ cstr tail)) := by
    rw [scanNumber_space]
    exact scanNumber_decimalInt h _ (noDigitAhead_space _)
  have h2 : scanNumber (32 :: (decimalInt l ++ 32 :: (decimalInt h ++ 32 ::
        (decimalInt dur ++ cstr tail))))
      = Conv.item (decide (l < 0)) l.natAbs (32 :: (decimalInt h ++ 32 ::
        (decimalInt dur ++ cstr tail))) := by
    rw [scanNumber_space]
    exact scanNumber_decimalInt l _ (noDigitAhead_space _)
  have h1 : scanNumber (decimalInt d ++ 32 :: (decimalInt l ++ 32 :: (decimalInt h ++ 32 ::
        (decimalInt dur ++ cstr tail))))
      = Conv.item (decide (d < 0)) d.natAbs (32 :: (decimalInt l ++ 32 :: (decimalInt h ++ 32 ::
        (decimalInt dur ++ cstr tail)))) :=
    scanNumber_decimalInt d _ (noDigitAhead_space _)
  have hs : cstr (commandText d l h dur ++ tail)
      = decimalInt d ++ 32 :: (decimalInt l ++ 32 :: (decimalInt h ++ 32 ::
        (decimalInt dur ++ cstr tail))) := by
    rw [cstr_append _ _ (commandText_no_nul d l h dur)]
    simp [commandText]
  unfold sscanf
  rw [hs, h1]
  simp only []
  rw [scanNumber_space] at h2 h3
  rw [scanNumber_space, h2]
  simp only []
  rw [scanNumber_space, h3]
  simp only []
  rw [scanNumber_space, h4]

theorem toInt32_strtol_nat (d : Nat) (hd : d < 2 ^ 31) :
    toInt32 (strtol (decide ((d : Int) < 0)) (d : Int).natAbs) = (d : Int) := by
  have hneg : ¬ ((d : Int) < 0) := by omega
  simp only [hneg, decide_False, strtol, Int.natAbs_ofNat, toInt32]
  norm_num at hd ⊢
  have h1 : ¬ (9223372036854775807 < d) := by omega
  simp only [h1, if_false]
  have h2 : (d : Int) % 4294967296 = d := by omega
  rw [h2]
  have h3 : ¬ ((2147483648 : Int) ≤ d) := by omega
  simp [h3]

theorem strtoul_mod (z : Int) (hlo : -(2 ^ 64 : Int) < z) (hhi : z < 2 ^ 64) (k : Nat)
    (hk : k ≤ 64) :
    strtoul (decide (z < 0)) z.natAbs % 2 ^ k = (z % 2 ^ k).toNat := by
  have hdvd : (2 ^ k : Int) ∣ 2 ^ 64 := pow_dvd_pow 2 hk
  have hpos : (0 : Int) < 2 ^ k := by positivity
  have hnn : 0 ≤ z % 2 ^ k := Int.emod_nonneg z (by omega)
  have hbig : ¬ (z.natAbs > 2 ^ 64 - 1) := by
    have : (z.natAbs : Int) < 2 ^ 64 := by
      rcases Int.natAbs_eq z with h | h <;> omega
    have h2 : z.natAbs < 2 ^ 64 := by exact_mod_cast this
    omega
  have hlt : z.natAbs < 2 ^ 64 := by omega
  apply Int.ofNat_inj.mp
  rw [Int.toNat_of_nonneg hnn]
  by_cases hz : z < 0
  · simp only [strtoul, hbig, if_false, hz, decide_True, if_true]
    have hm : 0 < z.natAbs := by omega
    have hsub : (2 ^ 64 - z.natAbs) % 2 ^ 64 = 2 ^ 64 - z.natAbs :=
      Nat.mod_eq_of_lt (by omega)
    rw [hsub]
    have hcast : ((2 ^ 64 - z.natAbs : Nat) : Int) = 2 ^ 64 + z := by omega
    have hc2 : ((2 ^ k : Nat) : Int) = 2 ^ k := by norm_cast
    obtain ⟨q, hq⟩ := hdvd
    rw [Int.natCast_mod, hcast, hc2, hq, add_comm, Int.add_mul_emod_self_left]
  · simp only [strtoul, hbig, if_false, hz, decide_False, Bool.false_eq_true]
    have habs : (z.natAbs : Int) = z := by omega
    have hc2 : ((2 ^ k : Nat) : Int) = 2 ^ k := by norm_cast
    rw [Int.natCast_mod, habs, hc2]

theorem toUint16_strtoul (z : Int) (hlo : -(2 ^ 64 : Int) < z) (hhi : z < 2 ^ 64) :
    toUint16 (strtoul (decide (z < 0)) z.natAbs) = (z % 2 ^ 16).toNat :=
  strtoul_mod z hlo hhi 16 (by decide)

theorem toUint32_strtoul (z : Int) (hlo : -(2 ^ 64 : Int) < z) (hhi : z < 2 ^ 64) :
    toUint32 (strtoul (decide (z < 0)) z.natAbs) = (z % 2 ^ 32).toNat :=
  strtoul_mod z hlo hhi 32 (by decide)

theorem decimalFuel_length : ∀ (fuel n k : Nat), n < 10 ^ (k + 1) →
    (decimalFuel fuel n).length ≤ k + 1 := by
  intro fuel
  induction fuel with
  | zero => intro n k _; simp [decimalFuel]
  | succ fuel ih =>
    intro n k hn
    by_cases hlt : n < 10
    · simp [decimalFuel, hlt]
    · have hdef : decimalFuel (fuel + 1) n = decimalFuel fuel (n / 10) ++ [48 + n % 10] := by
        simp [decimalFuel, hlt]
      cases k with
      | zero => simp at hn; omega
      | succ k =>
        have hdiv : n / 10 < 10 ^ (k + 1) := by
          apply Nat.div_lt_of_lt_mul
          rw [← pow_succ']
          exact hn
        have := ih (n / 10) k hdiv
        rw [hdef, List.length_append, List.length_singleton]
        omega

theorem decimalInt_natCast (n : Nat) : decimalInt (n : Int) = decimal n := by
  have hneg : ¬ ((n : Int) < 0) := by omega
  simp [decimalInt, hneg]

theorem commandText_length (d l h dur : Nat) (hd : d < 2 ^ 31) (hl : l ≤ 65535)
    (hh : h ≤ 65535) (hdur : dur ≤ 2 ^ 32 - 1) :
    (commandText d l h dur).length ≤ 33 := by
  have h1 : (decimal d).length ≤ 10 := decimalFuel_length d d 9 (by norm_num at hd ⊢; omega)
  have h2 : (decimal l).length ≤ 5 := decimalFuel_length l l 4 (by norm_num; omega)
  have h3 : (decimal h).length ≤ 5 := decimalFuel_length h h 4 (by norm_num; omega)
  have h4 : (decimal dur).length ≤ 10 :=
    decimalFuel_length dur dur 9 (by norm_num at hdur ⊢; omega)
  simp only [commandText, decimalInt_natCast, List.length_append, List.length_cons]
  omega

theorem noDigitAhead_replicate_zero (n : Nat) : NoDigitAhead (List.replicate n 0) := by
  intro c cs hc
  cases n with
  | zero => simp at hc
  | succ n =>
    rw [List.replicate_succ] at hc
    cases hc
    decide

/-- In-range fields come back unchanged, whatever non-digit continuation follows. -/
theorem sscanf_inRange (d l h dur : Nat) (hd : d < 2 ^ 31) (hl : l ≤ 65535) (hh : h ≤ 65535)
    (hdur : dur ≤ 2 ^ 32 - 1) (tail : List Nat) (ht : NoDigitAhead tail) (v : Vars) :
    sscanf (commandText d l h dur ++ tail) v
      = (4, { controllerIndex := d, low_freq := l, high_freq := h, duration := dur }) := by
  rw [sscanf_commandText _ _ _ _ tail ht v, toInt32_strtol_nat d hd,
    toUint16_strtoul l (by omega) (by omega), toUint16_strtoul h (by omega) (by omega),
    toUint32_strtoul dur (by omega) (by omega)]
  have e1 : ((l : Int) % 2 ^ 16).toNat = l := by omega
  have e2 : ((h : Int) % 2 ^ 16).toNat = h := by omega
  have e3 : ((dur : Int) % 2 ^ 32).toNat = dur := by omega
  rw [e1, e2, e3]

/-- The buffer left by a `read` that delivered a short text: the text, then NULs. -/
theorem bufferAfterRead_short (text : List Nat) (hlen : text.length ≤ 255) :
    bufferAfterRead text = text ++ List.replicate (256 - text.length) 0 := by
  have ht : text.take 255 = text := List.take_of_length_le hlen
  simp [bufferAfterRead, ht]

/-! ## The scanner and the grammar of numerals -/

theorem skipSpace_split (s : List Nat) :
    ∃ ws, s = ws ++ skipSpace s ∧ ∀ c ∈ ws, isspace c = true := by
  induction s with
  | nil => exact ⟨[], rfl, by simp⟩
  | cons c cs ih =>
    by_cases hc : isspace c = true
    · obtain ⟨ws, hws, hall⟩ := ih
      refine ⟨c :: ws, ?_, ?_⟩
      · simp only [skipSpace, hc, if_true, List.cons_append]
        rw [← hws]
      · intro x hx
        rcases List.mem_cons.mp hx with h | h
        · rw [h]; exact hc
        · exact hall x h
    · exact ⟨[], by simp [skipSpace, hc], by simp⟩

theorem readDigits_split (s : List Nat) : ∀ acc : Nat,
    ∃ ds, s = ds ++ (readDigits acc s).2 ∧ (∀ c ∈ ds, isdigit c = true)
      ∧ NoDigitAhead (readDigits acc s).2 := by
  induction s with
  | nil => intro acc; exact ⟨[], rfl, by simp, noDigitAhead_nil⟩
  | cons c cs ih =>
    intro acc
    by_cases hc : isdigit c = true
    · obtain ⟨ds, hds, hall, hno⟩ := ih (acc * 10 + (c - 48))
      rw [readDigits_cons_digit acc c cs hc]
      refine ⟨c :: ds, ?_, ?_, hno⟩
      · rw [List.cons_append, ← hds]
      · intro x hx
        rcases List.mem_cons.mp hx with h | h
        · rw [h]; exact hc
        · exact hall x h
    · have hrd : readDigits acc (c :: cs) = (acc, c :: cs) := by simp [readDigits, hc]
      rw [hrd]
      refine ⟨[], rfl, by simp, ?_⟩
      intro x xs hx
      cases hx
      simpa using hc

/-- The digits taken by `readDigits` from input that starts with a digit. -/
theorem readDigits_split_cons (d : Nat) (ds : List Nat) (hd : isdigit d = true) :
    ∃ dg, dg ≠ [] ∧ d :: ds = dg ++ (readDigits 0 (d :: ds)).2 ∧ (∀ c ∈ dg, isdigit c = true)
      ∧ NoDigitAhead (readDigits 0 (d :: ds)).2 := by
  obtain ⟨dg, hsplit, hall, hno⟩ := readDigits_split (d :: ds) 0
  refine ⟨dg, ?_, hsplit, hall, hno⟩
  intro hnil
  rw [hnil, List.nil_append] at hsplit
  have := hno d ds hsplit.symm
  rw [hd] at this
  cases this

/-- What a successful conversion consumed is a numeral. -/
theorem numeral_of_scanNumber (s : List Nat) (n : Bool) (m : Nat) (r : List Nat)
    (h : scanNumber s = Conv.item n m r) : Numeral s r := by
  obtain ⟨ws, hws, hall⟩ := skipSpace_split s
  unfold scanNumber at h
  cases hsk : skipSpace s with
  | nil => rw [hsk] at h; cases h
  | cons c cs =>
    rw [hsk] at h hws
    by_cases hsign : c = 45 ∨ c = 43
    · simp only [hsign, if_true] at h
      cases cs with
      | nil => cases h
      | cons d ds =>
        by_cases hd : isdigit d = true
        · simp only [hd, if_true] at h
          obtain ⟨dg, hne, hsplit, hdig, hno⟩ := readDigits_split_cons d ds hd
          have hr : (readDigits 0 (d :: ds)).2 = r := by
            injection h
          rw [hr] at hsplit hno
          refine ⟨ws, [c], dg, ?_, hall, ?_, hne, hdig, hno⟩
          · rw [hws, hsplit]; rfl
          · rcases hsign with h45 | h43
            · exact Or.inr (Or.inr (by rw [h45]))
            · exact Or.inr (Or.inl (by rw [h43]))
        · simp only [hd, Bool.false_eq_true, if_false] at h
          cases h
    · simp only [hsign, if_false] at h
      by_cases hd : isdigit c = true
      · simp only [hd, if_true] at h
        obtain ⟨dg, hne, hsplit, hdig, hno⟩ := readDigits_split_cons c cs hd
        have hr : (readDigits 0 (c :: cs)).2 = r := by
          injection h
        rw [hr] at hsplit hno
        refine ⟨ws, [], dg, ?_, hall, Or.inl rfl, hne, hdig, hno⟩
        rw [hws, hsplit]; rfl
      · simp only [hd, Bool.false_eq_true, if_false] at h
        cases h

theorem skipSpace_append_spaces (ws x : List Nat) (hall : ∀ c ∈ ws, isspace c = true) :
    skipSpace (ws ++ x) = skipSpace x := by
  induction ws with
  | nil => rfl
  | cons c cs ih =>
    have hc := hall c (List.mem_cons_self c cs)
    have hcs : ∀ y ∈ cs, isspace y = true := fun y hy => hall y (List.mem_cons_of_mem c hy)
    rw [List.cons_append]
    simp only [skipSpace, hc, if_true]
    exact ih hcs

theorem scanNumber_congr (a b : List Nat) (h : skipSpace a = skipSpace b) :
    scanNumber a = scanNumber b := by
  unfold scanNumber
  rw [h]

theorem scanNumber_plus_cons_digit (c : Nat) (cs : List Nat) (hc : isdigit c = true) :
    scanNumber (43 :: c :: cs)
      = Conv.item false (readDigits 0 (c :: cs)).1 (readDigits 0 (c :: cs)).2 := by
  have hsp : isspace 43 = false := by decide
  simp [scanNumber, skipSpace, hsp, hc]

/-- A numeral at the head of the input is consumed by one conversion. -/
theorem scanNumber_of_numeral (s r : List Nat) (h : Numeral s r) :
    ∃ n m, scanNumber s = Conv.item n m r := by
  obtain ⟨ws, sg, ds, hs, hall, hsg, hne, hdig, hno⟩ := h
  have hcongr : scanNumber s = scanNumber (sg ++ (ds ++ r)) := by
    apply scanNumber_congr
    rw [hs, skipSpace_append_spaces ws _ hall]
  rw [hcongr]
  cases ds with
  | nil => exact absurd rfl hne
  | cons d dt =>
    have hd : isdigit d = true := hdig d (List.mem_cons_self d dt)
    have hrd : (readDigits 0 (d :: (dt ++ r))).2 = r := by
      rw [← List.cons_append, readDigits_append (d :: dt) hdig 0 r,
        readDigits_of_noDigitAhead _ _ hno]
    rcases hsg with h0 | h43 | h45
    · subst h0
      refine ⟨false, (readDigits 0 (d :: (dt ++ r))).1, ?_⟩
      rw [List.nil_append, List.cons_append, scanNumber_cons_digit d _ hd, hrd]
    · subst h43
      refine ⟨false, (readDigits 0 (d :: (dt ++ r))).1, ?_⟩
      have : [43] ++ (d :: dt ++ r) = 43 :: d :: (dt ++ r) := rfl
      rw [this, scanNumber_plus_cons_digit d _ hd, hrd]
    · subst h45
      refine ⟨true, (readDigits 0 (d :: (dt ++ r))).1, ?_⟩
      have : [45] ++ (d :: dt ++ r) = 45 :: d :: (dt ++ r) := rfl
      rw [this, scanNumber_minus_cons_digit d _ hd, hrd]

/-- The `sscanf` step returns 4 exactly on input that begins with four numerals. -/
theorem sscanf_four_iff (buffer : List Nat) (v : Vars) :
    (sscanf buffer v).1 = 4 ↔ FourNumerals (cstr buffer) := by
  constructor
  · intro h
    unfold sscanf at h
    cases h1 : scanNumber (cstr buffer) with
    | inputFailure => rw [h1] at h; simp at h
    | matchFailure => rw [h1] at h; simp at h
    | item n1 m1 r1 =>
      rw [h1] at h
      simp only [] at h
      cases h2 : scanNumber r1 with
      | inputFailure => rw [h2] at h; simp at h
      | matchFailure => rw [h2] at h; simp at h
      | item n2 m2 r2 =>
        rw [h2] at h
        simp only [] at h
        cases h3 : scanNumber r2 with
        | inputFailure => rw [h3] at h; simp at h
        | matchFailure => rw [h3] at h; simp at h
        | item n3 m3 r3 =>
          rw [h3] at h
          simp only [] at h
          cases h4 : scanNumber r3 with
          | inputFailure => rw [h4] at h; simp at h
          | matchFailure => rw [h4] at h; simp at h
          | item n4 m4 r4 =>
            exact ⟨r1, r2, r3, r4, numeral_of_scanNumber _ _ _ _ h1,
              numeral_of_scanNumber _ _ _ _ h2, numeral_of_scanNumber _ _ _ _ h3,
              numeral_of_scanNumber _ _ _ _ h4⟩
  · rintro ⟨r1, r2, r3, r4, k1, k2, k3, k4⟩
    obtain ⟨n1, m1, h1⟩ := scanNumber_of_numeral _ _ k1
    obtain ⟨n2, m2, h2⟩ := scanNumber_of_numeral _ _ k2
    obtain ⟨n3, m3, h3⟩ := scanNumber_of_numeral _ _ k3
    obtain ⟨n4, m4, h4⟩ := scanNumber_of_numeral _ _ k4
    unfold sscanf
    rw [h1]
    simp only []
    rw [h2]
    simp only []
    rw [h3]
    simp only []
    rw [h4]

theorem not_numeral_of_head (c : Nat) (cs r : List Nat) (hsp : isspace c = false)
    (hdg : isdigit c = false) (h43 : c ≠ 43) (h45 : c ≠ 45) : ¬ Numeral (c :: cs) r := by
  rintro ⟨ws, sg, ds, hs, hall, hsg, hne, hdig, _⟩
  cases ws with
  | cons w wt =>
    rw [List.cons_append] at hs
    injection hs with hw _
    have := hall w (List.mem_cons_self w wt)
    rw [← hw, hsp] at this
    cases this
  | nil =>
    rw [List.nil_append] at hs
    cases ds with
    | nil => exact hne rfl
    | cons d dt =>
      have hd := hdig d (List.mem_cons_self d dt)
      rcases hsg with h | h | h
      · subst h
        rw [List.nil_append, List.cons_append] at hs
        injection hs with hc _
        rw [← hc, hdg] at hd
        cases hd
      · subst h
        injection hs with hc _
        exact h43 hc
      · subst h
        injection hs with hc _
        exact h45 hc

/-! ## Lemmas on the loop body -/

theorem dispatch_parse_failure (controllers : List Nat) (it : Iter) (buffer : List Nat)
    (h : (sscanf buffer it.uninit).1 ≠ 4) :
    dispatch controllers it buffer = [Effect.cerr "Invalid command format"] := by
  simp [dispatch, h]

theorem dispatch_bad_index (controllers : List Nat) (it : Iter) (buffer : List Nat)
    (h : (sscanf buffer it.uninit).1 = 4)
    (hidx : ¬ (0 ≤ (sscanf buffer it.uninit).2.controllerIndex
      ∧ (sscanf buffer it.uninit).2.controllerIndex < (controllers.length : Int))) :
    dispatch controllers it buffer
      = [Effect.cerr ("Invalid controller index: "
          ++ toString (sscanf buffer it.uninit).2.controllerIndex)] := by
  simp only [dispatch, h, if_true]
  rw [dif_neg hidx]

theorem dispatch_good_index (controllers : List Nat) (it : Iter) (buffer : List Nat)
    (h : (sscanf buffer it.uninit).1 = 4)
    (hidx : 0 ≤ (sscanf buffer it.uninit).2.controllerIndex
      ∧ (sscanf buffer it.uninit).2.controllerIndex < (controllers.length : Int)) :
    ∃ c, controllers[(sscanf buffer it.uninit).2.controllerIndex.toNat]? = some c
      ∧ dispatch controllers it buffer
        = handleRumble it.startRet it.stopRet c (sscanf buffer it.uninit).2.low_freq
            (sscanf buffer it.uninit).2.high_freq (sscanf buffer it.uninit).2.duration := by
  have hlt : (sscanf buffer it.uninit).2.controllerIndex.toNat < controllers.length := by omega
  refine ⟨controllers.get ⟨_, hlt⟩, ?_, ?_⟩
  · simp [List.getElem?_eq_getElem hlt]
  · simp only [dispatch, h, if_true]
    rw [dif_pos hidx]

theorem deviceCalls_handleRumble (startRet stopRet : Int) (c l h d : Nat) :
    deviceCalls (handleRumble startRet stopRet c l h d)
      = if startRet = 0 then
          [Effect.rumble c l h d 0, Effect.sleep d, Effect.rumble c 0 0 0 stopRet]
        else [Effect.rumble c l h d startRet] := by
  by_cases hs : startRet = 0
  · subst hs
    simp [handleRumble, deviceCalls]
  · simp [handleRumble, deviceCalls, hs]

theorem deviceCalls_append (a b : List Effect) :
    deviceCalls (a ++ b) = deviceCalls a ++ deviceCalls b := by
  simp [deviceCalls]

/-- The body of the loop when a connection was accepted and read. -/
theorem loopBody_served (controllers : List Nat) (it : Iter) (bs : List Nat)
    (hsel : it.retval ≠ -1) (hsel0 : it.retval ≠ 0) (hacc : 0 ≤ it.newsockfd)
    (hin : it.incoming = some bs) :
    loopBody controllers it
      = ([Effect.select it.retval, Effect.accept it.newsockfd,
          Effect.cout "Accepted a new connection",
          Effect.read it.newsockfd (readCount (some bs)),
          Effect.cout ("Received command: " ++ text (bufferAfterRead bs))]
          ++ dispatch controllers it (bufferAfterRead bs)
          ++ [Effect.close it.newsockfd, Effect.cout "Connection closed"], true) := by
  have hneg : ¬ (it.newsockfd < 0) := by omega
  simp only [loopBody, hsel, hsel0, hneg, if_false, ne_eq, not_false_eq_true, if_true, hin]

/-- The body of the loop when a connection was accepted and `read` failed. -/
theorem loopBody_read_error (controllers : List Nat) (it : Iter)
    (hsel : it.retval ≠ -1) (hsel0 : it.retval ≠ 0) (hacc : 0 ≤ it.newsockfd)
    (hin : it.incoming = none) :
    loopBody controllers it
      = ([Effect.select it.retval, Effect.accept it.newsockfd,
          Effect.cout "Accepted a new connection",
          Effect.read it.newsockfd (readCount none),
          Effect.cerr "Error reading from socket",
          Effect.close it.newsockfd], true) := by
  have hneg : ¬ (it.newsockfd < 0) := by omega
  simp only [loopBody, hsel, hsel0, hneg, if_false, ne_eq, not_false_eq_true, if_true, hin]

/-- The effects of `dispatch` are one log line, or those of `handleRumble`. -/
theorem dispatch_cases (controllers : List Nat) (it : Iter) (buffer : List Nat) :
    (∃ line, dispatch controllers it buffer = [Effect.cerr line])
    ∨ (∃ c l h d, dispatch controllers it buffer = handleRumble it.startRet it.stopRet c l h d) := by
  by_cases h : (sscanf buffer it.uninit).1 = 4
  · by_cases hidx : 0 ≤ (sscanf buffer it.uninit).2.controllerIndex
        ∧ (sscanf buffer it.uninit).2.controllerIndex < (controllers.length : Int)
    · obtain ⟨c, _, hc⟩ := dispatch_good_index controllers it buffer h hidx
      exact Or.inr ⟨c, _, _, _, hc⟩
    · exact Or.inl ⟨_, dispatch_bad_index controllers it buffer h hidx⟩
  · exact Or.inl ⟨_, dispatch_parse_failure controllers it buffer h⟩

theorem count_close_handleRumble (startRet stopRet : Int) (c l h d : Nat) (fd : Int) :
    (handleRumble startRet stopRet c l h d).count (Effect.close fd) = 0 := by
  by_cases hs : startRet = 0
  · subst hs
    simp [handleRumble]
  · simp [handleRumble, hs]

theorem count_close_dispatch (controllers : List Nat) (it : Iter) (buffer : List Nat) (fd : Int) :
    (dispatch controllers it buffer).count (Effect.close fd) = 0 := by
  rcases dispatch_cases controllers it buffer with ⟨line, h⟩ | ⟨c, l, h, d, hd⟩
  · rw [h]; simp
  · rw [hd]; exact count_close_handleRumble _ _ _ _ _ _ _

theorem no_rumble_of_parse_failure (controllers : List Nat) (it : Iter) (bs : List Nat)
    (hin : it.incoming = some bs) (hfail : (sscanf (bufferAfterRead bs) it.uninit).1 ≠ 4) :
    ∀ e ∈ (loopBody controllers it).1, isRumble e = false := by
  unfold loopBody
  by_cases h1 : it.retval = -1
  · by_cases hr : it.runningAfter = true <;> simp [h1, hr, isRumble]
  · by_cases h0 : it.retval ≠ 0
    · by_cases hneg : it.newsockfd < 0
      · by_cases hr : it.runningAfter = true <;> simp [h1, h0, hneg, hr, isRumble]
      · simp only [h1, h0, hneg, if_false, if_true, ne_eq, not_false_eq_true, hin]
        rw [dispatch_parse_failure controllers it _ hfail]
        simp [isRumble]
    · simp [h1, h0, isRumble]

/-! ## Lemmas on the serialization check -/

theorem serialRun_append (a b : List Effect) : ∀ m : Motor,
    serialRun m (a ++ b) = (serialRun m a).bind (fun m2 => serialRun m2 b) := by
  induction a with
  | nil => intro m; rfl
  | cons e t ih =>
    intro m
    simp only [List.cons_append, serialRun]
    cases serialStep m e with
    | none => rfl
    | some m2 => exact ih m2

theorem serialRun_handleRumble (startRet stopRet : Int) (c l h d : Nat) :
    serialRun Motor.idle (handleRumble startRet stopRet c l h d) = some Motor.idle := by
  by_cases hs : startRet = 0
  · subst hs
    simp [handleRumble, serialRun, serialStep]
  · simp [handleRumble, serialRun, serialStep, hs]

theorem serialRun_dispatch (controllers : List Nat) (it : Iter) (buffer : List Nat) :
    serialRun Motor.idle (dispatch controllers it buffer) = some Motor.idle := by
  rcases dispatch_cases controllers it buffer with ⟨line, h⟩ | ⟨c, l, h, d, hd⟩
  · rw [h]; rfl
  · rw [hd]; exact serialRun_handleRumble _ _ _ _ _ _

theorem serialRun_loopBody (controllers : List Nat) (it : Iter) :
    serialRun Motor.idle (loopBody controllers it).1 = some Motor.idle := by
  unfold loopBody
  by_cases h1 : it.retval = -1
  · by_cases hr : it.runningAfter = true <;> simp [h1, hr, serialRun, serialStep]
  · by_cases h0 : it.retval ≠ 0
    · by_cases hneg : it.newsockfd < 0
      · by_cases hr : it.runningAfter = true <;> simp [h1, h0, hneg, hr, serialRun, serialStep]
      · cases hin : it.incoming with
        | none => simp [h1, h0, hneg, serialRun, serialStep]
        | some bs =>
          simp only [h1, h0, hneg, if_false, if_true, ne_eq, not_false_eq_true]
          rw [serialRun_append, serialRun_append]
          simp [serialRun, serialStep, serialRun_dispatch]
    · simp [h1, h0, serialRun, serialStep]

theorem serialRun_closeControllers (controllers : List Nat) (t : List Effect) (m : Motor) :
    serialRun m (controllers.map Effect.closeController ++ t) = serialRun m t := by
  induction controllers with
  | nil => rfl
  | cons c cs ih =>
    cases m <;> simpa [serialRun, serialStep] using ih

theorem serialRun_teardown (controllers : List Nat) (sockfd : Int) :
    serialRun Motor.idle (teardown controllers sockfd) = some Motor.idle := by
  have h : teardown controllers sockfd
      = [Effect.close sockfd] ++ (controllers.map Effect.closeController
          ++ [Effect.quit, Effect.cout "Application closed gracefully."]) := rfl
  rw [h, serialRun_append]
  have h1 : serialRun Motor.idle [Effect.close sockfd] = some Motor.idle := rfl
  rw [h1, Option.some_bind, serialRun_closeControllers]
  rfl

/-! ## The claims -/

/-- C1: parser round-trip.  For every `d` in `[0, 2^31-1]`, `l`, `h` in
`[0, 65535]` and `dur` in `[0, 2^32-1]`, the text `"d l h dur"` (decimal, single
spaces) is parsed by the `sscanf` step with return value 4 and
`(controllerIndex, low_freq, high_freq, duration) = (d, l, h, dur)`, both when
the text is the whole argument and when it is what `read` left in the zeroed
256-byte buffer. -/
theorem parser_roundtrip (d l h dur : Nat) (hd : d < 2 ^ 31) (hl : l ≤ 65535) (hh : h ≤ 65535)
    (hdur : dur ≤ 2 ^ 32 - 1) (v : Vars) :
    sscanf (commandText d l h dur) v
        = (4, { controllerIndex := d, low_freq := l, high_freq := h, duration := dur })
    ∧ sscanf (bufferAfterRead (commandText d l h dur)) v
        = (4, { controllerIndex := d, low_freq := l, high_freq := h, duration := dur }) := by
  constructor
  · have := sscanf_inRange d l h dur hd hl hh hdur [] noDigitAhead_nil v
    rwa [List.append_nil] at this
  · rw [bufferAfterRead_short _
      (le_trans (commandText_length d l h dur hd hl hh hdur) (by decide))]
    exact sscanf_inRange d l h dur hd hl hh hdur _ (noDigitAhead_replicate_zero _) v

/-- Witness of C1 at the command `"0 30000 30000 500"`. -/
theorem parser_roundtrip_witness :
    ((0 : Nat) < 2 ^ 31 ∧ (30000 : Nat) ≤ 65535 ∧ (500 : Nat) ≤ 2 ^ 32 - 1)
    ∧ commandText (0 : Nat) (30000 : Nat) (30000 : Nat) (500 : Nat) = bytes "0 30000 30000 500"
    ∧ sscanf (commandText (0 : Nat) (30000 : Nat) (30000 : Nat) (500 : Nat)) ⟨-1, 9, 9, 9⟩
        = (4, { controllerIndex := 0, low_freq := 30000, high_freq := 30000, duration := 500 }) :=
  ⟨by decide, by decide,
    (parser_roundtrip 0 30000 30000 500 (by decide) (by decide) (by decide) (by decide)
      ⟨-1, 9, 9, 9⟩).1⟩

/-- C2: bounds rejection.  For an accepted connection whose buffer is parsed
successfully (`sscanf` returns 4) and any device list: if `controllerIndex < 0`
or `controllerIndex >= controllers.size()` the iteration makes no rumble call
and closes the accepted socket exactly once; a rumble call on controller `c`
occurs only when `0 <= controllerIndex < controllers.size()` and `c` is
`controllers[controllerIndex]`; and in that case the start call on that
controller, with the parsed values, is made. -/
theorem bounds_rejection (controllers : List Nat) (it : Iter) (bs : List Nat)
    (hsel : it.retval ≠ -1) (hsel0 : it.retval ≠ 0) (hacc : 0 ≤ it.newsockfd)
    (hin : it.incoming = some bs)
    (hparse : (sscanf (bufferAfterRead bs) it.uninit).1 = 4) :
    (((sscanf (bufferAfterRead bs) it.uninit).2.controllerIndex < 0
        ∨ (sscanf (bufferAfterRead bs) it.uninit).2.controllerIndex ≥ (controllers.length : Int)) →
      (∀ e ∈ (loopBody controllers it).1, isRumble e = false)
        ∧ (loopBody controllers it).1.count (Effect.close it.newsockfd) = 1)
    ∧ (∀ c l h d r, Effect.rumble c l h d r ∈ (loopBody controllers it).1 →
        0 ≤ (sscanf (bufferAfterRead bs) it.uninit).2.controllerIndex
        ∧ (sscanf (bufferAfterRead bs) it.uninit).2.controllerIndex < (controllers.length : Int)
        ∧ controllers[(sscanf (bufferAfterRead bs) it.uninit).2.controllerIndex.toNat]? = some c)
    ∧ ((0 ≤ (sscanf (bufferAfterRead bs) it.uninit).2.controllerIndex
        ∧ (sscanf (bufferAfterRead bs) it.uninit).2.controllerIndex < (controllers.length : Int)) →
      ∃ c, controllers[(sscanf (bufferAfterRead bs) it.uninit).2.controllerIndex.toNat]? = some c
        ∧ Effect.rumble c (sscanf (bufferAfterRead bs) it.uninit).2.low_freq
            (sscanf (bufferAfterRead bs) it.uninit).2.high_freq
            (sscanf (bufferAfterRead bs) it.uninit).2.duration it.startRet
          ∈ (loopBody controllers it).1) := by
  rw [loopBody_served controllers it bs hsel hsel0 hacc hin]
  refine ⟨?_, ?_, ?_⟩
  · intro hout
    have hidx : ¬ (0 ≤ (sscanf (bufferAfterRead bs) it.uninit).2.controllerIndex
        ∧ (sscanf (bufferAfterRead bs) it.uninit).2.controllerIndex
          < (controllers.length : Int)) := by omega
    rw [dispatch_bad_index controllers it _ hparse hidx]
    constructor
    · intro e he
      simp at he
      rcases he with he | he | he | he | he | he | he | he <;> subst he <;> rfl
    · simp
  · intro c l h d r hmem
    by_cases hidx : 0 ≤ (sscanf (bufferAfterRead bs) it.uninit).2.controllerIndex
        ∧ (sscanf (bufferAfterRead bs) it.uninit).2.controllerIndex < (controllers.length : Int)
    · obtain ⟨c2, hc2, hd2⟩ := dispatch_good_index controllers it _ hparse hidx
      refine ⟨hidx.1, hidx.2, ?_⟩
      rw [hd2] at hmem
      have hc : c = c2 := by
        by_cases hs : it.startRet = 0
        · simp [handleRumble, hs] at hmem
          rcases hmem with hmem | hmem
          · exact hmem.1
          · exact hmem.1
        · simp [handleRumble, hs] at hmem
          exact hmem.1
      rw [hc]
      exact hc2
    · rw [dispatch_bad_index controllers it _ hparse hidx] at hmem
      simp at hmem
  · intro hidx
    obtain ⟨c2, hc2, hd2⟩ := dispatch_good_index controllers it _ hparse hidx
    refine ⟨c2, hc2, ?_⟩
    rw [hd2]
    by_cases hs : it.startRet = 0
    · simp [handleRumble, hs]
    · simp [handleRumble, hs]

/-- Witness of C2: `"5 100 100 10"` with two devices gives no rumble call and
one close of the accepted socket. -/
theorem bounds_rejection_witness :
    (sscanf (bufferAfterRead (bytes "5 100 100 10")) ⟨0, 0, 0, 0⟩
        = (4, { controllerIndex := 5, low_freq := 100, high_freq := 100, duration := 10 }))
    ∧ (∀ e ∈ (loopBody [10, 11]
          ⟨true, 1, true, 5, some (bytes "5 100 100 10"), ⟨0, 0, 0, 0⟩, 0, 0⟩).1,
        isRumble e = false)
    ∧ (loopBody [10, 11]
          ⟨true, 1, true, 5, some (bytes "5 100 100 10"), ⟨0, 0, 0, 0⟩, 0, 0⟩).1.count
        (Effect.close 5) = 1 :=
  ⟨by decide,
    (bounds_rejection [10, 11]
      ⟨true, 1, true, 5, some (bytes "5 100 100 10"), ⟨0, 0, 0, 0⟩, 0, 0⟩
      (bytes "5 100 100 10") (by decide) (by decide) (by decide) rfl (by decide)).1
      (Or.inr (by decide))⟩

/-- Counterexample to C3 as stated.  The buffer `"1+2+3+4"` is a single
white-space-separated token, yet `sscanf` returns 4 with the values 1, 2, 3, 4
and the rumble call is made; and in `"0 1 2 3x"` the fourth token `3x` is not a
number, yet the parse succeeds with duration 3. -/
theorem single_token_accepted :
    wsTokens (cstr (bufferAfterRead (bytes "1+2+3+4"))) = [bytes "1+2+3+4"]
    ∧ sscanf (bufferAfterRead (bytes "1+2+3+4")) ⟨0, 0, 0, 0⟩
        = (4, { controllerIndex := 1, low_freq := 2, high_freq := 3, duration := 4 })
    ∧ deviceCalls (loopBody [10, 11]
          ⟨true, 1, true, 5, some (bytes "1+2+3+4"), ⟨0, 0, 0, 0⟩, 0, 0⟩).1
        = [Effect.rumble 11 2 3 4 0, Effect.sleep 4, Effect.rumble 11 0 0 0 0]
    ∧ wsTokens (cstr (bufferAfterRead (bytes "0 1 2 3x")))
        = [bytes "0", bytes "1", bytes "2", bytes "3x"]
    ∧ sscanf (bufferAfterRead (bytes "0 1 2 3x")) ⟨0, 0, 0, 0⟩
        = (4, { controllerIndex := 0, low_freq := 1, high_freq := 2, duration := 3 }) := by
  decide

/-- C3 as amended: malformed input rejection.  For every received buffer whose
text (the bytes before the first NUL) does not begin with four numerals, a
numeral being optional white space, an optional sign and one or more decimal
digits followed by a non-digit or the end, the parse fails (the `sscanf` result
is not 4) and the iteration makes no rumble call. -/
theorem malformed_rejected (controllers : List Nat) (it : Iter) (bs : List Nat)
    (hin : it.incoming = some bs)
    (hbad : ¬ FourNumerals (cstr (bufferAfterRead bs))) :
    (sscanf (bufferAfterRead bs) it.uninit).1 ≠ 4
    ∧ (∀ e ∈ (loopBody controllers it).1, isRumble e = false) := by
  have hfail : (sscanf (bufferAfterRead bs) it.uninit).1 ≠ 4 :=
    fun h => hbad ((sscanf_four_iff _ _).mp h)
  exact ⟨hfail, no_rumble_of_parse_failure controllers it bs hin hfail⟩

/-- Witness of C3: `"abc 1 2 3"` does not begin with a numeral, so the parse
fails and no rumble call is made. -/
theorem malformed_rejected_witness :
    (sscanf (bufferAfterRead (bytes "abc 1 2 3")) ⟨0, 0, 0, 0⟩).1 ≠ 4
    ∧ (∀ e ∈ (loopBody [10, 11]
          ⟨true, 1, true, 5, some (bytes "abc 1 2 3"), ⟨0, 0, 0, 0⟩, 0, 0⟩).1,
        isRumble e = false) := by
  have htext : cstr (bufferAfterRead (bytes "abc 1 2 3"))
      = 97 :: [98, 99, 32, 49, 32, 50, 32, 51] := by decide
  have hbad : ¬ FourNumerals (cstr (bufferAfterRead (bytes "abc 1 2 3"))) := by
    rw [htext]
    rintro ⟨r1, _, _, _, k1, _⟩
    exact not_numeral_of_head 97 _ r1 (by decide) (by decide) (by decide) (by decide) k1
  exact malformed_rejected [10, 11]
    ⟨true, 1, true, 5, some (bytes "abc 1 2 3"), ⟨0, 0, 0, 0⟩, 0, 0⟩
    (bytes "abc 1 2 3") rfl hbad

/-- The other rejected inputs named with C3: three numerals only, and the empty
buffer; `sscanf` returns 3 and `EOF`, and no rumble call is made. -/
theorem short_and_empty_rejected :
    (sscanf (bufferAfterRead (bytes "0 1 2")) ⟨0, 0, 0, 0⟩).1 = 3
    ∧ deviceCalls (loopBody [10, 11]
          ⟨true, 1, true, 5, some (bytes "0 1 2"), ⟨0, 0, 0, 0⟩, 0, 0⟩).1 = []
    ∧ (sscanf (bufferAfterRead (bytes "")) ⟨0, 0, 0, 0⟩).1 = -1
    ∧ deviceCalls (loopBody [10, 11]
          ⟨true, 1, true, 5, some (bytes ""), ⟨0, 0, 0, 0⟩, 0, 0⟩).1 = [] := by
  decide

/-- Counterexample to C4 as stated.  In `"0 70000 -1 4294967296"` the low token
is above 65535, the high token is negative and the duration token is above
`2^32 - 1`; `sscanf` still returns 4, the values stored are 4464, 65535 and 0,
and the rumble call is made with them. -/
theorem out_of_range_accepted :
    wsTokens (cstr (bufferAfterRead (bytes "0 70000 -1 4294967296")))
        = [bytes "0", bytes "70000", bytes "-1", bytes "4294967296"]
    ∧ sscanf (bufferAfterRead (bytes "0 70000 -1 4294967296")) ⟨0, 0, 0, 0⟩
        = (4, { controllerIndex := 0, low_freq := 4464, high_freq := 65535, duration := 0 })
    ∧ deviceCalls (loopBody [10, 11]
          ⟨true, 1, true, 5, some (bytes "0 70000 -1 4294967296"), ⟨0, 0, 0, 0⟩, 0, 0⟩).1
        = [Effect.rumble 10 4464 65535 0 0, Effect.sleep 0, Effect.rumble 10 0 0 0 0] := by
  decide

/-- C4 as amended: no range rejection in the parser.  For every text
`"d l h dur"` with `d` in `[0, 2^31-1]` and `l`, `h`, `dur` any integers of
magnitude below `2^64` (written with a minus sign when negative), in range or
not, the `sscanf` step returns 4 and stores `l mod 2^16`, `h mod 2^16` and
`dur mod 2^32`; with `d` below the number of controllers the start call is made
on `controllers[d]` with these reduced values. -/
theorem out_of_range_wraps (d : Nat) (l h dur : Int) (hd : d < 2 ^ 31)
    (hl : -(2 ^ 64 : Int) < l ∧ l < 2 ^ 64) (hh : -(2 ^ 64 : Int) < h ∧ h < 2 ^ 64)
    (hdur : -(2 ^ 64 : Int) < dur ∧ dur < 2 ^ 64) (controllers : List Nat) (it : Iter) :
    sscanf (commandText d l h dur) it.uninit
      = (4, { controllerIndex := d, low_freq := (l % 2 ^ 16).toNat,
              high_freq := (h % 2 ^ 16).toNat, duration := (dur % 2 ^ 32).toNat })
    ∧ (d < controllers.length →
        ∃ c, controllers[d]? = some c
          ∧ (dispatch controllers it (commandText d l h dur)).head?
            = some (Effect.rumble c (l % 2 ^ 16).toNat (h % 2 ^ 16).toNat
                (dur % 2 ^ 32).toNat it.startRet)) := by
  have hp : sscanf (commandText d l h dur) it.uninit
      = (4, { controllerIndex := d, low_freq := (l % 2 ^ 16).toNat,
              high_freq := (h % 2 ^ 16).toNat, duration := (dur % 2 ^ 32).toNat }) := by
    have := sscanf_commandText d l h dur [] noDigitAhead_nil it.uninit
    rw [List.append_nil] at this
    rw [this, toInt32_strtol_nat d hd, toUint16_strtoul l hl.1 hl.2,
      toUint16_strtoul h hh.1 hh.2, toUint32_strtoul dur hdur.1 hdur.2]
  refine ⟨hp, ?_⟩
  intro hlen
  have hparse : (sscanf (commandText d l h dur) it.uninit).1 = 4 := by rw [hp]
  have hidx : 0 ≤ (sscanf (commandText d l h dur) it.uninit).2.controllerIndex
      ∧ (sscanf (commandText d l h dur) it.uninit).2.controllerIndex
        < (controllers.length : Int) := by
    rw [hp]
    simp only
    omega
  obtain ⟨c, hc, hdis⟩ := dispatch_good_index controllers it _ hparse hidx
  refine ⟨c, ?_, ?_⟩
  · rw [hp] at hc
    simpa using hc
  · rw [hdis, hp]
    by_cases hs : it.startRet = 0
    · simp [handleRumble, hs]
    · simp [handleRumble, hs]

/-- Witness of C4: the low token 70000, the high token -1 and the duration token
4294967296 are stored as 4464, 65535 and 0. -/
theorem out_of_range_wraps_witness :
    commandText (0 : Nat) 70000 (-1) 4294967296 = bytes "0 70000 -1 4294967296"
    ∧ sscanf (commandText (0 : Nat) 70000 (-1) 4294967296) ⟨0, 0, 0, 0⟩
      = (4, { controllerIndex := 0, low_freq := 4464, high_freq := 65535, duration := 0 }) :=
  ⟨by decide,
    (out_of_range_wraps 0 70000 (-1) 4294967296 (by decide) (by decide) (by decide) (by decide)
      [10, 11] ⟨true, 1, true, 5, none, ⟨0, 0, 0, 0⟩, 0, 0⟩).1⟩

/-- C5: actuation sequence of `handleRumble`.  The controller calls and sleeps
of `handleRumble(controller, low, high, duration)` are: when the start call
returns 0, exactly the start call, then `sleep duration`, then
`rumble(controller, 0, 0, 0)`; when it returns non-zero, the start call alone.
In an iteration that accepted a connection, parsed its command and found the
index in range, these are all the controller calls and sleeps of the iteration,
made on `controllers[controllerIndex]` with the parsed values. -/
theorem actuation_sequence (controllers : List Nat) (it : Iter) (bs : List Nat)
    (hsel : it.retval ≠ -1) (hsel0 : it.retval ≠ 0) (hacc : 0 ≤ it.newsockfd)
    (hin : it.incoming = some bs)
    (hparse : (sscanf (bufferAfterRead bs) it.uninit).1 = 4)
    (hidx : 0 ≤ (sscanf (bufferAfterRead bs) it.uninit).2.controllerIndex
      ∧ (sscanf (bufferAfterRead bs) it.uninit).2.controllerIndex < (controllers.length : Int)) :
    (∀ (startRet stopRet : Int) (c l h d : Nat),
      deviceCalls (handleRumble startRet stopRet c l h d)
        = if startRet = 0 then
            [Effect.rumble c l h d 0, Effect.sleep d, Effect.rumble c 0 0 0 stopRet]
          else [Effect.rumble c l h d startRet])
    ∧ ∃ c, controllers[(sscanf (bufferAfterRead bs) it.uninit).2.controllerIndex.toNat]? = some c
      ∧ deviceCalls (loopBody controllers it).1
        = if it.startRet = 0 then
            [Effect.rumble c (sscanf (bufferAfterRead bs) it.uninit).2.low_freq
                (sscanf (bufferAfterRead bs) it.uninit).2.high_freq
                (sscanf (bufferAfterRead bs) it.uninit).2.duration 0,
             Effect.sleep (sscanf (bufferAfterRead bs) it.uninit).2.duration,
             Effect.rumble c 0 0 0 it.stopRet]
          else
            [Effect.rumble c (sscanf (bufferAfterRead bs) it.uninit).2.low_freq
                (sscanf (bufferAfterRead bs) it.uninit).2.high_freq
                (sscanf (bufferAfterRead bs) it.uninit).2.duration it.startRet] := by
  refine ⟨deviceCalls_handleRumble, ?_⟩
  obtain ⟨c, hc, hd⟩ := dispatch_good_index controllers it _ hparse hidx
  refine ⟨c, hc, ?_⟩
  rw [loopBody_served controllers it bs hsel hsel0 hacc hin]
  simp only [deviceCalls_append, hd, deviceCalls_handleRumble]
  simp [deviceCalls]

/-- Witness of C5: `"0 30000 30000 500"` on a registry whose device 0 is
controller 10 gives `rumble(10, 30000, 30000, 500)`, `sleep 500`,
`rumble(10, 0, 0, 0)`. -/
theorem actuation_sequence_witness :
    (sscanf (bufferAfterRead (bytes "0 30000 30000 500")) ⟨0, 0, 0, 0⟩
        = (4, { controllerIndex := 0, low_freq := 30000, high_freq := 30000, duration := 500 }))
    ∧ deviceCalls (loopBody [10, 11]
          ⟨true, 1, true, 5, some (bytes "0 30000 30000 500"), ⟨0, 0, 0, 0⟩, 0, 0⟩).1
        = [Effect.rumble 10 30000 30000 500 0, Effect.sleep 500, Effect.rumble 10 0 0 0 0] := by
  have hp : sscanf (bufferAfterRead (bytes "0 30000 30000 500")) ⟨0, 0, 0, 0⟩
      = (4, { controllerIndex := 0, low_freq := 30000, high_freq := 30000, duration := 500 }) := by
    decide
  obtain ⟨c, hc, hd⟩ := (actuation_sequence [10, 11]
      ⟨true, 1, true, 5, some (bytes "0 30000 30000 500"), ⟨0, 0, 0, 0⟩, 0, 0⟩
      (bytes "0 30000 30000 500") (by decide) (by decide) (by decide) rfl (by decide)
      (by decide)).2
  simp only [hp] at hc hd
  have hc10 : c = 10 := by simpa using hc.symm
  subst hc10
  exact ⟨hp, by simpa using hd⟩

/-- C6: per-connection errors are never fatal and the connection is always
closed.  For every iteration that accepted a connection (`select` returned
neither -1 nor 0, `accept` returned a descriptor `>= 0`), whatever `read`, the
parse, the index check and the start call give: the accepted socket is closed
exactly once in the iteration, the body does not leave the loop, and the loop
goes on with the next iteration after the effects of this one.  The body leaves
the loop only when `select` returns -1. -/
theorem connection_always_closed (controllers : List Nat) (sockfd : Int) (it : Iter)
    (rest : List Iter) (hrun : it.running = true)
    (hsel : it.retval ≠ -1) (hsel0 : it.retval ≠ 0) (hacc : 0 ≤ it.newsockfd) :
    (loopBody controllers it).1.count (Effect.close it.newsockfd) = 1
    ∧ (loopBody controllers it).2 = true
    ∧ serverLoop controllers sockfd (it :: rest)
        = (loopBody controllers it).1 ++ serverLoop controllers sockfd rest
    ∧ (∀ it2 : Iter, (loopBody controllers it2).2 = false ↔ it2.retval = -1) := by
  have hcount : (loopBody controllers it).1.count (Effect.close it.newsockfd) = 1
      ∧ (loopBody controllers it).2 = true := by
    cases hin : it.incoming with
    | none =>
      rw [loopBody_read_error controllers it hsel hsel0 hacc hin]
      simp
    | some bs =>
      rw [loopBody_served controllers it bs hsel hsel0 hacc hin]
      simp [List.count_append, count_close_dispatch]
  refine ⟨hcount.1, hcount.2, ?_, ?_⟩
  · simp [serverLoop, hrun, hcount.2]
  · intro it2
    unfold loopBody
    by_cases h1 : it2.retval = -1
    · simp [h1]
    · by_cases h0 : it2.retval ≠ 0
      · by_cases hneg : it2.newsockfd < 0
        · simp [h1, h0, hneg]
        · cases hin : it2.incoming <;> simp [h1, h0, hneg]
      · simp [h1, h0]

/-- Witness of C6: a connection whose command fails to parse, followed by an
iteration that sees the flag cleared. -/
theorem connection_always_closed_witness :
    (loopBody [10] ⟨true, 1, true, 5, some (bytes "abc 1 2 3"), ⟨0, 0, 0, 0⟩, 0, 0⟩).1.count
        (Effect.close 5) = 1
    ∧ (loopBody [10] ⟨true, 1, true, 5, some (bytes "abc 1 2 3"), ⟨0, 0, 0, 0⟩, 0, 0⟩).2 = true :=
  ⟨(connection_always_closed [10] 3
      ⟨true, 1, true, 5, some (bytes "abc 1 2 3"), ⟨0, 0, 0, 0⟩, 0, 0⟩
      [⟨false, 0, false, 0, none, ⟨0, 0, 0, 0⟩, 0, 0⟩] rfl (by decide) (by decide) (by decide)).1,
   (connection_always_closed [10] 3
      ⟨true, 1, true, 5, some (bytes "abc 1 2 3"), ⟨0, 0, 0, 0⟩, 0, 0⟩
      [⟨false, 0, false, 0, none, ⟨0, 0, 0, 0⟩, 0, 0⟩] rfl (by decide) (by decide) (by decide)).2.1⟩

/-- Counterexample to C7 as stated: on `SIGINT` (signal 2) the handler writes a
line to `std::cout` before it clears the flag, so it does perform console
output. -/
theorem signalHandler_writes_console :
    (signalHandler 2 true).1
      = [Effect.cout "Interrupt signal (2) received. Shutting down..."]
    ∧ (signalHandler 2 true).1 ≠ [] := by
  decide

/-- C7 as amended: for every signal number and every prior value of the flag,
`signalHandler` writes exactly one line to `std::cout` (naming the signal
number) and leaves `running = false`; it makes no other call: no socket or
controller is closed, no rumble call, no sleep. -/
theorem signalHandler_effects (signum : Int) (running : Bool) :
    (signalHandler signum running).2 = false
    ∧ (signalHandler signum running).1
        = [Effect.cout ("Interrupt signal (" ++ toString signum ++ ") received. Shutting down...")]
    ∧ (∀ e ∈ (signalHandler signum running).1, ∃ line, e = Effect.cout line) := by
  refine ⟨rfl, rfl, ?_⟩
  intro e he
  simp only [signalHandler, List.mem_singleton] at he
  exact ⟨_, he⟩

/-- C8: serialization.  In the effect trace of the server loop, for any device
list and any sequence of environment answers (any sequence of connections and
outcomes), reading the rumble calls in order never finds a start call between
another command's successful start call and its stop call
`rumble(controller, 0, 0, 0)`: every call made while a command is active is
that command's own stop call, so a later command's start call comes after the
earlier command's stop call; and at the end of the trace no command is left
active. -/
theorem actuations_serialized (controllers : List Nat) (sockfd : Int) (script : List Iter) :
    serialRun Motor.idle (serverLoop controllers sockfd script) = some Motor.idle := by
  induction script with
  | nil => rfl
  | cons it rest ih =>
    unfold serverLoop
    by_cases hrun : it.running = true
    · by_cases hgo : (loopBody controllers it).2 = true
      · simp only [hrun, hgo, if_true]
        rw [serialRun_append, serialRun_loopBody]
        exact ih
      · simp only [hrun, hgo, if_true, Bool.false_eq_true, if_false]
        rw [serialRun_append, serialRun_loopBody]
        exact serialRun_teardown controllers sockfd
    · simp only [hrun, Bool.false_eq_true, if_false]
      exact serialRun_teardown controllers sockfd

/-- The checker of C8 is not vacuous: a trace in which a second start call comes
before the first command's stop call is rejected. -/
theorem serialRun_rejects_overlap :
    serialRun Motor.idle
      [Effect.rumble 10 100 100 50 0, Effect.rumble 11 200 200 50 0,
       Effect.rumble 10 0 0 0 0, Effect.rumble 11 0 0 0 0] = none := by
  decide

/-- C9: trailing content is accepted and ignored.  For in-range `d`, `l`, `h`,
`dur` and any bytes `rest`, the buffer `"d l h dur"` followed by a space and
`rest` is parsed with return value 4 and the same four values as `"d l h dur"`
alone. -/
theorem trailing_content_ignored (d l h dur : Nat) (hd : d < 2 ^ 31) (hl : l ≤ 65535)
    (hh : h ≤ 65535) (hdur : dur ≤ 2 ^ 32 - 1) (rest : List Nat) (v : Vars) :
    sscanf (commandText d l h dur ++ 32 :: rest) v = sscanf (commandText d l h dur) v
    ∧ sscanf (commandText d l h dur ++ 32 :: rest) v
        = (4, { controllerIndex := d, low_freq := l, high_freq := h, duration := dur }) := by
  have h1 := sscanf_inRange d l h dur hd hl hh hdur (32 :: rest) (noDigitAhead_space rest) v
  have h2 := sscanf_inRange d l h dur hd hl hh hdur [] noDigitAhead_nil v
  rw [List.append_nil] at h2
  exact ⟨h1.trans h2.symm, h1⟩

/-- Witness of C9: `"1 2 3 4 junk"`, with a NUL inside the trailing bytes. -/
theorem trailing_content_ignored_witness :
    ((1 : Nat) < 2 ^ 31 ∧ (2 : Nat) ≤ 65535 ∧ (3 : Nat) ≤ 65535 ∧ (4 : Nat) ≤ 2 ^ 32 - 1)
    ∧ sscanf (commandText (1 : Nat) (2 : Nat) (3 : Nat) (4 : Nat) ++ 32 :: [106, 0, 57, 57]) ⟨0, 0, 0, 0⟩
        = (4, { controllerIndex := 1, low_freq := 2, high_freq := 3, duration := 4 }) :=
  ⟨by decide,
    (trailing_content_ignored 1 2 3 4 (by decide) (by decide) (by decide) (by decide)
      [106, 0, 57, 57] ⟨0, 0, 0, 0⟩).2⟩

/-- C10: the bound port is not the declared constant.  `PORT` is 123456, the
argument of `htons` is converted to 16 bits, so the port that `sin_port`
denotes is `123456 mod 2^16 = 57920` on either byte order, while the log line
reports 123456. -/
theorem bound_port_differs (littleEndianHost : Bool) :
    PORT = 123456
    ∧ portOfSinPort littleEndianHost (sin_port littleEndianHost) = 57920
    ∧ (57920 : Int) = PORT % 2 ^ 16
    ∧ bindLogLine = "Socket binding successful on port 123456"
    ∧ (portOfSinPort littleEndianHost (sin_port littleEndianHost) : Int) ≠ PORT := by
  cases littleEndianHost <;> decide

end Rumble
